import Mathlib

/-!
Verification of the execution and output-normalization pipeline of the
pynote browser notebook.

The development shallowly embeds:

* the Python execution wrapper `run_code` injected into the Pyodide worker
  (`src/unnamed/part_005`, `KERNEL_CODE`, lines 49-119), parameterized over
  the CPython `exec`/`eval` semantics, which live outside the repository and
  are supplied as oracles; a small concrete interpreter for the fragment of
  Python exercised by the testable properties instantiates the oracles;
* the output normalizer and the `executeCode` cell action of the Zustand
  store (`src/src/store/notebookStore.ts`, lines 111-223);
* the memoized loader `getPyodide` / `loadPyodideAndPackages`
  (`src/src/kernel/pyodide.worker.ts`, PyodideLoader section) and the
  package-preload loops of both initialization paths;
* the off-main-thread execution channel's timeout race (the
  `executeCodeWithWorker` implementation is not part of the sources, so the
  request-correlation part is modelled from the specification).
-/

set_option linter.unusedVariables false

namespace Pynote

/-! ## String primitives

Python and JavaScript string operations used by the embedded code
(`strip`/`trim`, `split`, `startswith`, slicing) are re-implemented
structurally over `List Char` so that every definition reduces inside the
kernel.  The embedded sources only ever apply them to ASCII text. -/

/-- Whitespace recognized by the trim operations (ASCII fragment of Python
`str.strip` and JavaScript `String.prototype.trim`). -/
def isSpaceChar (c : Char) : Bool :=
  c = ' ' || c = '\t' || c = '\n' || c = '\r'

/-- Python `s.strip()` / JavaScript `s.trim()` on the ASCII fragment. -/
def trimChars (s : String) : String :=
  String.mk (((s.data.dropWhile isSpaceChar).reverse.dropWhile isSpaceChar).reverse)

/-- Helper for `splitLines`: accumulate the current chunk while scanning. -/
def splitOnCharAux (c : Char) : List Char → List Char → List String
  | [], acc => [String.mk acc.reverse]
  | x :: xs, acc =>
    if x = c then String.mk acc.reverse :: splitOnCharAux c xs []
    else splitOnCharAux c xs (x :: acc)

/-- Python `s.split(c)` for a one-character separator; on `""` it yields
`[""]`, exactly like Python. -/
def splitOnChar (c : Char) (s : String) : List String :=
  splitOnCharAux c s.data []

/-- Python `code.split(chr(10))`, the line splitting used by `run_code`. -/
def splitLines (s : String) : List String :=
  splitOnChar '\n' s

/-- Python `s.startswith(p)` / JavaScript `s.startsWith(p)`. -/
def strStarts (s p : String) : Bool :=
  p.data.isPrefixOf s.data

/-- Python `s.endswith(p)`. -/
def strEnds (s p : String) : Bool :=
  p.data.reverse.isPrefixOf s.data.reverse

/-- Python slicing `s[n:]`. -/
def strDrop (s : String) (n : Nat) : String :=
  String.mk (s.data.drop n)

/-- Python slicing `s[:-n]`. -/
def strDropRight (s : String) (n : Nat) : String :=
  String.mk (s.data.take (s.data.length - n))

/-- Characters allowed in the identifiers of the modelled Python fragment. -/
def isIdentChar (c : Char) : Bool :=
  c.isAlphanum || c = '_'

/-- Identifier test for the modelled Python fragment (ASCII names). -/
def isIdent (s : String) : Bool :=
  match s.data with
  | [] => false
  | c :: cs => (c.isAlpha || c = '_') && cs.all isIdentChar

/-- Digit accumulator for `parseInt`. -/
def parseNatAux : List Char → Nat → Option Nat
  | [], n => some n
  | c :: cs, n => if c.isDigit then parseNatAux cs (n * 10 + (c.toNat - 48)) else none

/-- Python `int` literal recognition (decimal, optional minus sign),
the fragment of literals the modelled interpreter accepts. -/
def parseInt (s : String) : Option Int :=
  match s.data with
  | [] => none
  | '-' :: cs =>
    match cs with
    | [] => none
    | _ => (parseNatAux cs 0).map (fun n => -(n : Int))
  | cs => (parseNatAux cs 0).map (fun n => (n : Int))

/-! ## Output records

The execution wrapper labels each produced entry with one of the tags
`text`, `image`, `html`, `error`, `string` (`src/unnamed/part_005`,
lines 69, 79, 85, 93, 105, 108, 119); `CellOutput` in
`src/src/store/notebookStore.ts` lists the same five tags.  `OutKind.str`
embeds the tag `string`.  The specification's data model collapses the two
textual tags `text` and `string` into its single `text` kind, so theorems
about the spec's "text record" use `isTextLikeKind`. -/

inductive OutKind where
  | text
  | image
  | html
  | error
  | str
  deriving DecidableEq

/-- Canonical output entry `(type, data)` produced by `run_code`. -/
structure OutRec where
  kind : OutKind
  data : String
  deriving DecidableEq

/-- Kinds rendered as plain text; the specification's `text` kind covers the
code's `text` and `string` tags. -/
def isTextLikeKind : OutKind → Bool
  | .text => true
  | .str => true
  | _ => false

/-- Raw value returned by `run_code`: either a single entry or the ordered
list of collected entries (lines 112-119 of `src/unnamed/part_005`). -/
inductive RunResult where
  | one (r : OutRec)
  | many (rs : List OutRec)
  deriving DecidableEq

/-! ## Python values and the persistent namespace

The values observable through `run_code`'s heuristics: `None` (skipped by
the last-expression step), integers and strings (displayed via `str`),
function objects (created by `def`), and objects exposing `to_html`
(rendered as `html`).  The persistent global namespace
`sys.modules[chr(39)+"__main__"].__dict__` is an association list. -/

inductive PyVal where
  | none_
  | int (n : Int)
  | str (s : String)
  | func (name : String)
  | dataFrame (html : String)
  deriving DecidableEq

/-- Python `str(v)` on the modelled values. -/
def pyStr : PyVal → String
  | .none_ => "None"
  | .int n => toString n
  | .str s => s
  | .func n => "<function " ++ n ++ ">"
  | .dataFrame h => h

/-- Python `hasattr(v, "to_html")` together with the call `v.to_html()`:
`some` returns the rendered markup. -/
def pyToHtml : PyVal → Option String
  | .dataFrame h => some h
  | _ => none

/-- Persistent global-variable namespace of the interpreter session. -/
abbrev PyEnv := List (String × PyVal)

/-- Namespace lookup. -/
def envLookup : PyEnv → String → Option PyVal
  | [], _ => none
  | (k, v) :: r, x => if k = x then some v else envLookup r x

/-- Namespace update (assignment semantics: overwrite or append). -/
def envSet : PyEnv → String → PyVal → PyEnv
  | [], x, v => [(x, v)]
  | (k, w) :: r, x, v => if k = x then (k, v) :: r else (k, w) :: envSet r x v

/-! ## The execution wrapper `run_code`

Shallow embedding of `run_code` from `KERNEL_CODE` in
`src/unnamed/part_005` (lines 49-119).  The CPython semantics of
`exec(code, global_vars)` is an oracle producing an `ExecEffect`; the
semantics of `eval(last_line, global_vars)` is an oracle returning either a
value or a raised exception.  Everything else — buffer capture, the entry
collection, the error precedence, the last-expression heuristic and the
final return policy — is translated line by line from the source. -/

/-- Observable effect of `exec(code, global_vars)`: the updated namespace,
the text captured on the redirected stdout and stderr buffers, the
exception message if one propagated, and the rendered figure payload when
`plt.gcf()` has axes after the run (`none` when there is no active figure;
the base64 PNG encoding produced by `savefig` is part of the oracle). -/
structure ExecEffect where
  env : PyEnv
  stdout : String
  stderr : String
  exn : Option String
  fig : Option String
  deriving DecidableEq

/-- Oracle for `exec` over the persistent namespace. -/
abbrev ExecOracle := String → PyEnv → ExecEffect

/-- Oracle for `eval` of the trailing-line heuristic; `Except.error` is a
raised exception (swallowed by `run_code`). -/
abbrev EvalOracle := String → PyEnv → Except String PyVal

/-- Entries collected on success before the heuristic step: trimmed stdout
first if non-empty (lines 67-69), then the rendered figure (lines 72-79). -/
def collectStdFig (eff : ExecEffect) : List OutRec :=
  (if trimChars eff.stdout ≠ "" then [⟨.text, trimChars eff.stdout⟩] else []) ++
  (match eff.fig with
   | some img => [⟨.image, img⟩]
   | none => [])

/-- Statement prefixes excluded by the trailing-expression heuristic, the
tuple at line 100 of `src/unnamed/part_005`. -/
def stmtHeads : List String :=
  ["print", "plt.", "import", "from", "def", "class", "if", "for",
   "while", "with", "try", "#", "="]

/-- Python `last_line.startswith(tuple)` over `stmtHeads`. -/
def isStmtLike (line : String) : Bool :=
  stmtHeads.any (fun h => strStarts line h)

/-- Lines 97-99: `code.strip().split()` and the stripped final element;
`split` never yields an empty list, mirrored by the `getD`. -/
def lastNonBlankLine (code : String) : String :=
  trimChars ((splitLines (trimChars code)).getLast?.getD "")

/-- Gate of the heuristic (line 100): the trailing line is evaluated iff it
is non-empty and matches none of the excluded prefixes. -/
def lastExprCandidate (code : String) : Option String :=
  let l := lastNonBlankLine code
  if l ≠ "" ∧ ¬ isStmtLike l then some l else none

/-- Lines 96-110: best-effort evaluation of the trailing line against the
post-execution namespace; a raised exception or a `None` value contributes
nothing, a `to_html`-capable value becomes an `html` entry, anything else a
`text` entry via `str`. -/
def evalEntry (pyeval : EvalOracle) (env : PyEnv) (code : String) : List OutRec :=
  match lastExprCandidate code with
  | none => []
  | some l =>
    match pyeval l env with
    | .error _ => []
    | .ok v =>
      if v = PyVal.none_ then []
      else
        match pyToHtml v with
        | some h => [⟨.html, h⟩]
        | none => [⟨.text, pyStr v⟩]

/-- Lines 112-119: the final return-value policy over the collected list. -/
def finishOutputs : List OutRec → RunResult
  | [] => .one ⟨.str, ""⟩
  | [r] => .one r
  | rs => .many rs

/-- The execution wrapper `run_code` (lines 49-119 of
`src/unnamed/part_005`).  On an exception the captured stderr (if any,
unstripped truthiness test of line 83) is prepended, stripped, to the
exception text (lines 81-85).  After the `finally` restore, a non-blank
stderr takes precedence and discards every collected entry (lines 90-93).
Otherwise the collected entries are extended by the heuristic entry and
returned under the final policy.  The updated persistent namespace is
returned alongside. -/
def run_code (pyexec : ExecOracle) (pyeval : EvalOracle)
    (code : String) (env : PyEnv) : RunResult × PyEnv :=
  let eff := pyexec code env
  match eff.exn with
  | some e =>
    let msg := if eff.stderr ≠ "" then trimChars eff.stderr ++ "\n" ++ e else e
    (.one ⟨.error, msg⟩, eff.env)
  | none =>
    if trimChars eff.stderr ≠ "" then
      (.one ⟨.error, trimChars eff.stderr⟩, eff.env)
    else
      (finishOutputs (collectStdFig eff ++ evalEntry pyeval eff.env code), eff.env)

/-! ## A concrete interpreter for the exercised Python fragment

Modelled CPython semantics for the statement forms the testable properties
use: assignments of literals and variables, `print`, bare expressions,
`import`, single-line `def`, comments, and `sys.stderr.write` of a
double-quoted literal.  `exec` runs the program line by line, accumulating
the captured streams; a raised exception aborts the run and keeps the
effects produced so far, as CPython does.  The fragment has no plotting, so
`fig` is always `none`. -/

/-- Double-quoted string literal of the fragment (no escape sequences). -/
def parseStrLit (t : String) : Option String :=
  if strStarts t "\"" && strEnds t "\"" && 2 ≤ t.data.length then
    some (strDropRight (strDrop t 1) 1)
  else none

/-- Modelled CPython `eval` on the fragment: identifier lookup (raising a
NameError message when unbound), integer and string literals, and
`sys.stderr.write` of a literal, which returns the written length.  Any
other text raises a SyntaxError message — in particular assignments and
`def` headers are not expressions. -/
def pyEvalExpr (env : PyEnv) (e : String) : Except String PyVal :=
  let t := trimChars e
  if isIdent t then
    match envLookup env t with
    | some v => .ok v
    | none => .error ("name " ++ t ++ " is not defined")
  else
    match parseInt t with
    | some n => .ok (.int n)
    | none =>
      match parseStrLit t with
      | some s => .ok (.str s)
      | none =>
        if strStarts t "sys.stderr.write(" && strEnds t ")" then
          match parseStrLit (trimChars (strDropRight (strDrop t 17) 1)) with
          | some s => .ok (.int s.data.length)
          | none => .error "invalid syntax"
        else .error "invalid syntax"

/-- Running state of the modelled `exec`: namespace plus the two captured
stream buffers. -/
structure PyState where
  env : PyEnv
  out : String
  err : String
  deriving DecidableEq

/-- One statement line of the fragment.  `print(e)` appends `str` of the
value and a newline to the captured stdout; `sys.stderr.write` of a literal
appends it, without a newline, to the captured stderr; assignment binds;
a bare expression is evaluated for effect only; `import`, comments and
blank lines do nothing observable in the fragment; single-line `def`
binds a function object. -/
def execStmtLine (st : PyState) (line : String) : Except String PyState :=
  let t := trimChars line
  if t = "" then .ok st
  else if strStarts t "#" then .ok st
  else if strStarts t "import " then .ok st
  else if strStarts t "def " && strEnds t ": pass" then
    let name := trimChars (String.mk ((strDrop t 4).data.takeWhile (fun c => c ≠ '(')))
    .ok { st with env := envSet st.env name (.func name) }
  else if strStarts t "print(" && strEnds t ")" then
    match pyEvalExpr st.env (strDropRight (strDrop t 6) 1) with
    | .ok v => .ok { st with out := st.out ++ pyStr v ++ "\n" }
    | .error e => .error e
  else if strStarts t "sys.stderr.write(" && strEnds t ")" then
    match parseStrLit (trimChars (strDropRight (strDrop t 17) 1)) with
    | some s => .ok { st with err := st.err ++ s }
    | none => .error "invalid syntax"
  else
    match splitOnChar '=' t with
    | [lhs, rhs] =>
      if isIdent (trimChars lhs) then
        match pyEvalExpr st.env rhs with
        | .ok v => .ok { st with env := envSet st.env (trimChars lhs) v }
        | .error e => .error e
      else .error "cannot assign"
    | _ =>
      match pyEvalExpr st.env t with
      | .ok _ => .ok st
      | .error e => .error e

/-- Run the lines in order; an exception stops the program, keeping the
state reached so far. -/
def pyExecLines : List String → PyState → PyState × Option String
  | [], st => (st, none)
  | l :: ls, st =>
    match execStmtLine st l with
    | .ok st2 => pyExecLines ls st2
    | .error e => (st, some e)

/-- Modelled CPython `exec` on the fragment, packaged as an `ExecOracle`. -/
def pyExec : ExecOracle := fun code env =>
  let r := pyExecLines (splitLines code) ⟨env, "", ""⟩
  { env := r.1.env, stdout := r.1.out, stderr := r.1.err, exn := r.2, fig := none }

/-- Modelled CPython `eval` packaged as an `EvalOracle`. -/
def pyEval : EvalOracle := fun l env => pyEvalExpr env l

/-- Entries collected by one successful execution: the stdout/figure entries
followed by the trailing-expression entry — the `outputs` list of
`run_code` at the moment the final return policy runs. -/
def collectedOutputs (pyexec : ExecOracle) (pyeval : EvalOracle)
    (code : String) (env : PyEnv) : List OutRec :=
  collectStdFig (pyexec code env) ++ evalEntry pyeval (pyexec code env).env code

/-! ## JavaScript values and the output normalizer

Shallow embedding of the JavaScript values the main-thread normalizer can
receive from the execution pathway and of the normalization in
`executeCode` (`src/src/store/notebookStore.ts`, lines 144-200).  Numbers
are modelled as integers (no claim involves floating point); objects and
`Map`s are association lists in property order. -/

inductive JSVal where
  | vstr (s : String)
  | vnum (n : Int)
  | vbool (b : Bool)
  | vnull
  | vundef
  | varr (xs : List JSVal)
  | vobj (fields : List (String × JSVal))
  | vmap (entries : List (String × JSVal))
  | vproxy (converted : JSVal)

/-- JavaScript `"k" in obj` on an own-property object. -/
def hasField (fs : List (String × JSVal)) (k : String) : Bool :=
  fs.any (fun p => p.1 = k)

/-- JavaScript property read `obj.k`; a missing property is `undefined`. -/
def objGet : List (String × JSVal) → String → JSVal
  | [], _ => .vundef
  | (k0, v0) :: fs, k => if k0 = k then v0 else objGet fs k

/-- Write or overwrite one property, keeping first-insertion order as
JavaScript objects do. -/
def setField : List (String × JSVal) → String → JSVal → List (String × JSVal)
  | [], k, v => [(k, v)]
  | (k0, v0) :: fs, k, v =>
    if k0 = k then (k0, v) :: fs else (k0, v0) :: setField fs k v

/-- JavaScript `Object.fromEntries`: later duplicate keys overwrite
earlier ones. -/
def fromEntries (es : List (String × JSVal)) : List (String × JSVal) :=
  es.foldl (fun acc p => setField acc p.1 p.2) []

/-- Test for the JavaScript `undefined` value, used for the
`data !== undefined` comparison. -/
def isUndef : JSVal → Bool
  | .vundef => true
  | _ => false

/-- JavaScript truthiness, used for the `outputFromPython.type &&` test. -/
def truthy : JSVal → Bool
  | .vstr s => s ≠ ""
  | .vnum n => n ≠ 0
  | .vbool b => b
  | .vnull => false
  | .vundef => false
  | _ => true

/-- Serialization standing in for `JSON.stringify(v, null, 2)`; the exact
layout (indentation, number formatting) is a host-runtime detail no claim
depends on, so a compact form is used.  Braces are written as escapes. -/
def jsonStringifyList (sep : String) : List String → String
  | [] => ""
  | [s] => s
  | s :: rest => s ++ sep ++ jsonStringifyList sep rest

mutual

/-- Recursive body of the `JSON.stringify` stand-in. -/
def jsonStringify : JSVal → String
  | .vstr s => "\x22" ++ s ++ "\x22"
  | .vnum n => toString n
  | .vbool b => if b then "true" else "false"
  | .vnull => "null"
  | .vundef => "null"
  | .varr xs => "[" ++ jsonStringifyList ", " (jsonStringifyArr xs) ++ "]"
  | .vobj fs => "\x7b" ++ jsonStringifyList ", " (jsonStringifyObj fs) ++ "\x7d"
  | .vmap _ => "\x7b\x7d"
  | .vproxy _ => "\x7b\x7d"

/-- Serialize array elements. -/
def jsonStringifyArr : List JSVal → List String
  | [] => []
  | v :: vs => jsonStringify v :: jsonStringifyArr vs

/-- Serialize object properties. -/
def jsonStringifyObj : List (String × JSVal) → List String
  | [] => []
  | (k, v) :: fs => ("\x22" ++ k ++ "\x22: " ++ jsonStringify v) :: jsonStringifyObj fs

end

/-- A `string`-tagged record holding the given text, the shape
`executeCode` builds in its fallback branches. -/
def strRecord (s : String) : JSVal :=
  .vobj [("type", .vstr "string"), ("data", .vstr s)]

/-- An `error`-tagged record, the shape stored by the catch branch of
`executeCode`. -/
def errorRecord (msg : String) : JSVal :=
  .vobj [("type", .vstr "error"), ("data", .vstr msg)]

/-- Element validity test of the array branch (lines 151-153): the element
is an object exposing both `type` and `data` own properties.  Arrays,
`Map`s and proxies expose neither own property. -/
def isRecordLike : JSVal → Bool
  | .vobj fs => hasField fs "type" && hasField fs "data"
  | _ => false

/-- Already-canonical shapes: a record with both fields, or an array all of
whose elements are such records. -/
def isCanonicalOutput : JSVal → Bool
  | .varr xs => xs.all isRecordLike
  | v => isRecordLike v

/-- The output normalizer of `executeCode`
(`src/src/store/notebookStore.ts`, lines 144-200), branch for branch:
an array passes through when every element is record-like and is otherwise
serialized into a single `string` record; an object with both `type` and
`data` properties passes through; a `Map` is converted positionally by
`Object.fromEntries`; a proxy is replaced by its `toJs()` conversion (the
source handle is destroyed) without re-normalization; any other object is
serialized; primitives are coerced to a string, `undefined` and `null` to
the empty string (both fail the object guard of line 147). -/
def normalizeOutput (v : JSVal) : JSVal :=
  match v with
  | .varr xs =>
    if xs.all isRecordLike then .varr xs
    else strRecord (jsonStringify (.varr xs))
  | .vobj fs =>
    if hasField fs "type" && hasField fs "data" then .vobj fs
    else if truthy (objGet fs "type") && !isUndef (objGet fs "data") then
      .vobj [("type", objGet fs "type"), ("data", objGet fs "data")]
    else
      strRecord (jsonStringify (.vobj fs))
  | .vmap es => .vobj (fromEntries es)
  | .vproxy inner => inner
  | .vstr s => strRecord s
  | .vnum n => strRecord (toString n)
  | .vbool b => strRecord (if b then "true" else "false")
  | .vnull => strRecord ""
  | .vundef => strRecord ""

/-! ## The cell store action `executeCode`

Embedding of the `executeCode` action of the Zustand store
(`src/src/store/notebookStore.ts`, lines 111-223).  The asynchronous
`Promise.race` of the worker call against the 30-second timer is
represented by a `WorkerOutcome` parameter; the two `set` calls become two
list transformations. -/

/-- Cell type tags of the store. -/
inductive CellType where
  | code
  | markdown
  deriving DecidableEq

/-- A notebook cell; `output` and `isExecuting` are optional properties as
in the TypeScript interface. -/
structure Cell where
  id : String
  type : CellType
  content : String
  output : Option JSVal := none
  isExecuting : Option Bool := none

/-- Settled result of the race at lines 134-139: the worker call resolved
with a value, rejected with a message, or the 30-second timer fired
first. -/
inductive WorkerOutcome where
  | success (v : JSVal)
  | failure (msg : String)
  | timedOut

/-- Fixed message of the rejection produced when the timer fires
(line 137). -/
def timeoutMessage : String := "Execution timed out after 30 seconds"

/-- Placeholder output stored while the cell is executing (line 122). -/
def runningPlaceholder : JSVal := strRecord "Running..."

/-- First `set` call (lines 119-125): mark the triggering cell as executing
and show the placeholder. -/
def markExecuting (id : String) (cells : List Cell) : List Cell :=
  cells.map fun c =>
    if c.id = id then { c with isExecuting := some true, output := some runningPlaceholder }
    else c

/-- Final `set` call (lines 202-208 and 211-221): store the result on the
triggering cell and clear the executing flag. -/
def storeResult (id : String) (out : JSVal) (cells : List Cell) : List Cell :=
  cells.map fun c =>
    if c.id = id then { c with output := some out, isExecuting := some false }
    else c

/-- The `executeCode` action.  The guard of lines 112-115 returns without
touching anything when the cell is missing, is not a code cell, or has
blank content.  Otherwise the placeholder is stored, the race outcome is
turned into the stored output: a resolved value is normalized, while a
rejection or the timeout reaches the outer catch as an
`Execution error: ...` message stored as an error record. -/
def executeCode (cells : List Cell) (id : String) (outcome : WorkerOutcome) : List Cell :=
  match cells.find? (fun c => c.id = id) with
  | none => cells
  | some cell =>
    if cell.type = CellType.code ∧ trimChars cell.content ≠ "" then
      let started := markExecuting id cells
      match outcome with
      | .success v => storeResult id (normalizeOutput v) started
      | .failure m => storeResult id (errorRecord ("Execution error: " ++ m)) started
      | .timedOut =>
        storeResult id (errorRecord ("Execution error: " ++ timeoutMessage)) started
    else cells

/-! ## The off-main-thread channel and its timeout race

The 30-second race itself is in `executeCode`
(`src/src/store/notebookStore.ts`, lines 133-139).  The worker-call side
(`executeCodeWithWorker` and its requestId bookkeeping) is imported from a
module that is not among the sources, so it is modelled from the
specification. -/

/-- Timeout of the race in milliseconds (`setTimeout(..., 30000)`,
line 137 of `src/src/store/notebookStore.ts`). -/
def executionTimeoutMs : Nat := 30000

/-- Reply of the background context for one request. -/
inductive WorkerReply where
  | result (v : JSVal)
  | failed (msg : String)

/-- Modelled from the spec: the caller races the worker reply, arriving
`replyAt` milliseconds after the call (`none` when no reply ever comes),
against the fixed timer; the reply wins only when it arrives strictly
before the timer fires, otherwise the race settles as a timeout. -/
def raceWithTimeout (replyAt : Option Nat) (reply : WorkerReply) : WorkerOutcome :=
  match replyAt with
  | some t =>
    if t < executionTimeoutMs then
      match reply with
      | .result v => .success v
      | .failed m => .failure m
    else .timedOut
  | none => .timedOut

/-- Modelled from the spec: correlation state of the channel — the
requestIds that still have a waiting caller and the requestId the
background context is currently computing, if any.  The
`executeCodeWithWorker` implementation is not under the sources. -/
structure ChannelState where
  pending : List Nat
  running : Option Nat
  deriving DecidableEq

/-- Modelled from the spec: when the timer fires first the caller abandons
its wait; the request is dropped from the pending table while the
background computation is left untouched (no cancellation). -/
def abandonWait (st : ChannelState) (rid : Nat) : ChannelState :=
  { st with pending := st.pending.filter (fun r => r ≠ rid) }

/-- Modelled from the spec: a reply is delivered to its waiter only when
its requestId is still pending; a late reply whose id no longer matches a
waiter is dropped without any effect. -/
def deliverReply (st : ChannelState) (rid : Nat) (reply : WorkerReply) :
    ChannelState × Option WorkerReply :=
  if st.pending.contains rid then
    ({ st with pending := st.pending.filter (fun r => r ≠ rid) }, some reply)
  else (st, none)

/-! ## Interpreter-host initialization

Embedding of the loader lifecycle: the memoized accessor `getPyodide` and
`loadPyodideAndPackages` of the PyodideLoader section of
`src/src/kernel/pyodide.worker.ts`, and the tolerant package loop of
`initializePyodide` in `src/unnamed/part_005`.  The actual network loads
are oracles returning success or an error message. -/

/-- Result of one initialization step or of the whole initialization: a
resolved or rejected promise. -/
inductive LoadResult where
  | ok
  | err (msg : String)
  deriving DecidableEq

/-- Module state of the loader: `pyodideReadyPromise` is `none` while
unset, and once set it remembers the settled result of the memoized
promise — including a rejection, which nothing ever clears (only
`cleanupPyodide`, run on page unload, resets the variable). -/
structure LoaderState where
  memo : Option LoadResult
  deriving DecidableEq

/-- Preload list of the main-thread loader (line 411). -/
def mainPackages : List String := ["numpy", "pandas", "matplotlib", "micropip"]

/-- Preload list of the worker (line 136 of `src/unnamed/part_005`). -/
def workerPackages : List String := ["numpy", "matplotlib", "scikit-learn", "micropip"]

/-- Sequential package loop of `loadPyodideAndPackages` (lines 413-426):
each package is loaded in order and a failure is logged and **rethrown**
(line 424), aborting the loop. -/
def loadPackagesSeq (loadPackage : String → LoadResult) : List String → LoadResult
  | [] => .ok
  | p :: ps =>
    match loadPackage p with
    | .ok => loadPackagesSeq loadPackage ps
    | .err m => .err m

/-- Sequential package loop of the worker `initializePyodide`
(`src/unnamed/part_005`, lines 136-144): a failure is caught inside the
loop and only warned, and the loop always continues.  Returns the loaded
packages and the warned ones, in order. -/
def loadPackagesTolerant (loadPackage : String → LoadResult) :
    List String → List String × List String
  | [] => ([], [])
  | p :: ps =>
    let rest := loadPackagesTolerant loadPackage ps
    match loadPackage p with
    | .ok => (p :: rest.1, rest.2)
    | .err _ => (rest.1, p :: rest.2)

/-- The body of `loadPyodideAndPackages` (lines 380-466): engine load, the
rethrowing package loop, then the kernel bootstrap; the outer catch logs
and rethrows (line 464), so any failed step rejects the returned
promise. -/
def loadPyodideAndPackages (engine : LoadResult) (loadPackage : String → LoadResult)
    (bootstrap : LoadResult) : LoadResult :=
  match engine with
  | .err m => .err m
  | .ok =>
    match loadPackagesSeq loadPackage mainPackages with
    | .err m => .err m
    | .ok => bootstrap

/-- The worker initialization `initializePyodide`
(`src/unnamed/part_005`, lines 123-205): engine load and bootstrap
failures surface as errors, while the package loop cannot fail the
initialization. -/
def initializePyodide (engine : LoadResult) (loadPackage : String → LoadResult)
    (bootstrap : LoadResult) : LoadResult :=
  match engine with
  | .err m => .err m
  | .ok =>
    let _ := loadPackagesTolerant loadPackage workerPackages
    bootstrap

/-- The memoized accessor `getPyodide` (lines 541-549): when
`pyodideReadyPromise` is unset, start `loadPyodideAndPackages` — whose
settled result is the `attempt` argument — memoize the promise and return
it; otherwise return the memoized promise, whatever it settled to. -/
def getPyodide (st : LoaderState) (attempt : LoadResult) : LoaderState × LoadResult :=
  match st.memo with
  | some r => (st, r)
  | none => ({ memo := some attempt }, attempt)

/-- Frame relation between a cell list before and after an action targeting
the cell with the given id: equal length, pointwise identical `id`, `type`
and `content`, and every cell with a different id kept entirely
identical. -/
def framePreserved (id : String) (cells cells2 : List Cell) : Prop :=
  cells2.length = cells.length ∧
  (∀ i : Nat,
    (cells2.get? i).map Cell.id = (cells.get? i).map Cell.id ∧
    (cells2.get? i).map Cell.type = (cells.get? i).map Cell.type ∧
    (cells2.get? i).map Cell.content = (cells.get? i).map Cell.content) ∧
  (∀ (i : Nat) (c : Cell), cells.get? i = some c → c.id ≠ id → cells2.get? i = some c)

/-! ## Basic lemmas about the interpreter fragment -/

/-- Assignment writes the bound value: looking up the assigned name after
`envSet` yields the new value. -/
lemma envLookup_envSet_self (env : PyEnv) (x : String) (v : PyVal) :
    envLookup (envSet env x v) x = some v := by
  induction env with
  | nil => simp [envSet, envLookup]
  | cons p r ih =>
    obtain ⟨k, w⟩ := p
    by_cases hk : k = x <;> simp [envSet, envLookup, hk, ih]

/-- Evaluating the bare variable `x` returns its bound value. -/
lemma pyEvalExpr_var_x (env : PyEnv) (v : PyVal) (h : envLookup env "x" = some v) :
    pyEvalExpr env "x" = .ok v := by
  have hd : pyEvalExpr env "x" =
      (match envLookup env "x" with
       | some w => Except.ok w
       | none => Except.error ("name " ++ "x" ++ " is not defined")) := rfl
  rw [hd, h]

/-- Executing the bare statement `x` for a bound `x` leaves the state
unchanged. -/
lemma execStmtLine_bare_x (st : PyState) (v : PyVal) (h : envLookup st.env "x" = some v) :
    execStmtLine st "x" = .ok st := by
  have hd : execStmtLine st "x" =
      (match pyEvalExpr st.env "x" with
       | .ok _ => Except.ok st
       | .error e => Except.error e) := rfl
  rw [hd, pyEvalExpr_var_x st.env v h]

/-- Full behaviour of `run_code` on the bare source `x` when `x` is bound to
an integer: the execution produces no captured output and the trailing-line
heuristic displays the value. -/
lemma run_code_bare_x (env : PyEnv) (n : Int) (h : envLookup env "x" = some (.int n)) :
    run_code pyExec pyEval "x" env = (.one ⟨.text, toString n⟩, env) := by
  have hlines : pyExecLines (splitLines "x") ⟨env, "", ""⟩ = (⟨env, "", ""⟩, none) := by
    have hd : pyExecLines (splitLines "x") ⟨env, "", ""⟩ =
        (match execStmtLine ⟨env, "", ""⟩ "x" with
         | .ok st2 => (st2, none)
         | .error e => (⟨env, "", ""⟩, some e)) := rfl
    rw [hd, execStmtLine_bare_x ⟨env, "", ""⟩ (.int n) h]
  have heff : pyExec "x" env = ⟨env, "", "", none, none⟩ := by
    simp only [pyExec]
    rw [hlines]
  have heval : pyEval "x" env = Except.ok (PyVal.int n) := pyEvalExpr_var_x env _ h
  have hentry : evalEntry pyEval env "x" = [⟨.text, toString n⟩] := by
    have hd : evalEntry pyEval env "x" =
        (match pyEval "x" env with
         | .error _ => []
         | .ok v =>
           if v = PyVal.none_ then []
           else
             match pyToHtml v with
             | some h => [⟨OutKind.html, h⟩]
             | none => [⟨OutKind.text, pyStr v⟩]) := rfl
    rw [hd, heval]
    rfl
  simp only [run_code]
  rw [heff, hentry]
  rfl

/-- Behaviour of `run_code` after an exception-free execution whose trimmed
stderr capture is empty: the collected entries run through the final
policy, and the updated namespace is returned. -/
lemma run_code_success (pyexec : ExecOracle) (pyeval : EvalOracle)
    (code : String) (env : PyEnv)
    (hexn : (pyexec code env).exn = none)
    (herr : trimChars (pyexec code env).stderr = "") :
    run_code pyexec pyeval code env =
      (finishOutputs (collectedOutputs pyexec pyeval code env), (pyexec code env).env) := by
  rcases hE : pyexec code env with ⟨env', sout, serr, ex, fg⟩
  rw [hE] at hexn herr
  have hex : ex = none := hexn
  have hse : trimChars serr = "" := herr
  subst hex
  unfold run_code collectedOutputs
  rw [hE]
  simp [hse]

/-- Reduction of the heuristic entry once the gate has selected a line. -/
lemma evalEntry_some (pyeval : EvalOracle) (env : PyEnv) (code l : String)
    (hcand : lastExprCandidate code = some l) :
    evalEntry pyeval env code =
      (match pyeval l env with
       | .error _ => []
       | .ok v =>
         if v = PyVal.none_ then []
         else
           match pyToHtml v with
           | some h => [⟨OutKind.html, h⟩]
           | none => [⟨OutKind.text, pyStr v⟩]) := by
  unfold evalEntry
  rw [hcand]

/-- C1: shared kernel state persists across executions — for every
starting namespace, running `x = 5` through `run_code` leaves `x` bound to
`5` in the returned namespace, and a later call on the bare source `x`
against that namespace yields a text record with payload `"5"` (and leaves
the namespace unchanged). -/
theorem run_code_persists_globals (env : PyEnv) :
    envLookup (run_code pyExec pyEval "x = 5" env).2 "x" = some (.int 5) ∧
    run_code pyExec pyEval "x" (run_code pyExec pyEval "x = 5" env).2 =
      (.one ⟨OutKind.text, "5"⟩, (run_code pyExec pyEval "x = 5" env).2) := by
  have hfst : (run_code pyExec pyEval "x = 5" env).2 = envSet env "x" (.int 5) := rfl
  have hlook : envLookup (envSet env "x" (.int 5)) "x" = some (.int 5) :=
    envLookup_envSet_self env "x" (.int 5)
  refine ⟨by rw [hfst]; exact hlook, ?_⟩
  rw [hfst]
  exact run_code_bare_x (envSet env "x" (.int 5)) 5 hlook

/-- C2: final return-value policy of `run_code` — over any execution with
no exception and no (trimmed) stderr output, two or more collected entries
are returned as the ordered list, exactly one collected entry is returned
directly, and no collected entry yields a single text-like record with
empty payload; in particular a source that only assigns a variable returns
that empty record. -/
theorem run_code_return_policy :
    (∀ (pyexec : ExecOracle) (pyeval : EvalOracle) (code : String) (env : PyEnv),
        (pyexec code env).exn = none → trimChars (pyexec code env).stderr = "" →
        2 ≤ (collectedOutputs pyexec pyeval code env).length →
        (run_code pyexec pyeval code env).1 = .many (collectedOutputs pyexec pyeval code env)) ∧
    (∀ (pyexec : ExecOracle) (pyeval : EvalOracle) (code : String) (env : PyEnv) (r : OutRec),
        (pyexec code env).exn = none → trimChars (pyexec code env).stderr = "" →
        collectedOutputs pyexec pyeval code env = [r] →
        (run_code pyexec pyeval code env).1 = .one r) ∧
    (∀ (pyexec : ExecOracle) (pyeval : EvalOracle) (code : String) (env : PyEnv),
        (pyexec code env).exn = none → trimChars (pyexec code env).stderr = "" →
        collectedOutputs pyexec pyeval code env = [] →
        (run_code pyexec pyeval code env).1 = .one ⟨OutKind.str, ""⟩ ∧
          isTextLikeKind OutKind.str = true) ∧
    run_code pyExec pyEval "y = 7" [] = (.one ⟨OutKind.str, ""⟩, [("y", .int 7)]) := by
  refine ⟨?_, ?_, ?_, rfl⟩
  · intro pyexec pyeval code env hexn herr hlen
    rw [run_code_success pyexec pyeval code env hexn herr]
    rcases houts : collectedOutputs pyexec pyeval code env with _ | ⟨r, _ | ⟨r2, rs⟩⟩
    · rw [houts] at hlen; simp at hlen
    · rw [houts] at hlen; simp at hlen
    · rfl
  · intro pyexec pyeval code env r hexn herr hone
    rw [run_code_success pyexec pyeval code env hexn herr, hone]
    rfl
  · intro pyexec pyeval code env hexn herr hnil
    rw [run_code_success pyexec pyeval code env hexn herr, hnil]
    exact ⟨rfl, rfl⟩

/-- Witness for C2: the assignment-only source `y = 7` collects nothing
and returns the single empty text-like record. -/
theorem run_code_return_policy_witness :
    (run_code pyExec pyEval "y = 7" []).1 = .one ⟨OutKind.str, ""⟩ ∧
      isTextLikeKind OutKind.str = true :=
  run_code_return_policy.2.2.1 pyExec pyEval "y = 7" [] rfl rfl rfl

/-- Counterexample for C3 as stated: a program whose execution writes the
non-empty string `" "` to the captured stderr and raises nothing, yet
`run_code` returns no error record at all — the whitespace-only capture is
stripped away by the truthiness test of line 91, so the claim's
"non-empty" is too weak. -/
theorem run_code_error_precedence_cex :
    (pyExec "import sys\nsys.stderr.write(\" \")\nx = 1" []).stderr = " " ∧
    (pyExec "import sys\nsys.stderr.write(\" \")\nx = 1" []).exn = none ∧
    (run_code pyExec pyEval "import sys\nsys.stderr.write(\" \")\nx = 1" []).1 =
      .one ⟨OutKind.str, ""⟩ ∧
    (OutKind.str ≠ OutKind.error) :=
  ⟨rfl, rfl, rfl, by decide⟩

/-- C3 (amended): error-stream precedence for non-whitespace stderr — when
the execution raises no exception but leaves a non-blank trimmed stderr
capture, `run_code` returns exactly one error record carrying that trimmed
text and every collected text/image entry is discarded; when the execution
raises, it returns exactly one error record carrying the exception text,
prefixed by the trimmed stderr capture when the capture is non-empty. -/
theorem run_code_error_precedence :
    (∀ (pyexec : ExecOracle) (pyeval : EvalOracle) (code : String) (env : PyEnv),
        (pyexec code env).exn = none →
        trimChars (pyexec code env).stderr ≠ "" →
        (run_code pyexec pyeval code env).1 =
          .one ⟨OutKind.error, trimChars (pyexec code env).stderr⟩) ∧
    (∀ (pyexec : ExecOracle) (pyeval : EvalOracle) (code : String) (env : PyEnv) (e : String),
        (pyexec code env).exn = some e →
        (run_code pyexec pyeval code env).1 =
          .one ⟨OutKind.error,
            if (pyexec code env).stderr ≠ "" then
              trimChars (pyexec code env).stderr ++ "\n" ++ e
            else e⟩) := by
  constructor
  · intro pyexec pyeval code env hexn herr
    rcases hE : pyexec code env with ⟨env', sout, serr, ex, fg⟩
    rw [hE] at hexn herr
    have hex : ex = none := hexn
    subst hex
    unfold run_code
    rw [hE]
    simp only
    rw [if_pos herr]
  · intro pyexec pyeval code env e hexn
    rcases hE : pyexec code env with ⟨env', sout, serr, ex, fg⟩
    rw [hE] at hexn
    have hex : ex = some e := hexn
    subst hex
    unfold run_code
    rw [hE]

/-- Witness for C3 (amended): evaluating the unbound name `x` raises, and
the whole call returns exactly the one error record with the exception
text. -/
theorem run_code_error_precedence_witness :
    (run_code pyExec pyEval "x" []).1 =
      .one ⟨OutKind.error, "name x is not defined"⟩ :=
  (run_code_error_precedence.2 pyExec pyEval "x" [] "name x is not defined" rfl).trans rfl

/-- C8: gating of the trailing-expression heuristic — the stripped final
line is selected for evaluation iff it is non-blank and starts with none
of the recognized statement prefixes; when no line is selected the
evaluation oracle is never consulted (any two oracles give identical
results); a raised evaluation failure is swallowed, leaving exactly the
entries collected before the heuristic; and on the concrete source
`def f(): pass` nothing is selected and the overall result is the empty
text-like record. -/
theorem run_code_last_expr_gating :
    (∀ (code : String) (l : String),
        lastExprCandidate code = some l ↔
          (l = lastNonBlankLine code ∧ l ≠ "" ∧ isStmtLike l = false)) ∧
    (∀ (pyexec : ExecOracle) (pe1 pe2 : EvalOracle) (code : String) (env : PyEnv),
        lastExprCandidate code = none →
        run_code pyexec pe1 code env = run_code pyexec pe2 code env) ∧
    (∀ (pyexec : ExecOracle) (pyeval : EvalOracle) (code : String) (env : PyEnv)
        (l e : String),
        (pyexec code env).exn = none → trimChars (pyexec code env).stderr = "" →
        lastExprCandidate code = some l →
        pyeval l (pyexec code env).env = .error e →
        (run_code pyexec pyeval code env).1 =
          finishOutputs (collectStdFig (pyexec code env))) ∧
    (lastExprCandidate "def f(): pass" = none ∧
      run_code pyExec pyEval "def f(): pass" [] =
        (.one ⟨OutKind.str, ""⟩, [("f", .func "f")]) ∧
      isTextLikeKind OutKind.str = true) := by
  refine ⟨?_, ?_, ?_, rfl, rfl, rfl⟩
  · intro code l
    simp only [lastExprCandidate]
    split_ifs with h
    · simp only [Option.some.injEq]
      constructor
      · rintro rfl
        exact ⟨rfl, h.1, by simpa using h.2⟩
      · rintro ⟨rfl, _, _⟩
        rfl
    · constructor
      · intro hc
        cases hc
      · rintro ⟨rfl, h1, h2⟩
        exact absurd ⟨h1, by simp [h2]⟩ h
  · intro pyexec pe1 pe2 code env hnone
    have h1 : evalEntry pe1 (pyexec code env).env code = [] := by
      unfold evalEntry; rw [hnone]
    have h2 : evalEntry pe2 (pyexec code env).env code = [] := by
      unfold evalEntry; rw [hnone]
    simp only [run_code]
    rw [h1, h2]
  · intro pyexec pyeval code env l e hexn herr hcand heval
    rw [run_code_success pyexec pyeval code env hexn herr]
    have hent : evalEntry pyeval (pyexec code env).env code = [] := by
      rw [evalEntry_some pyeval _ code l hcand, heval]
    unfold collectedOutputs
    rw [hent, List.append_nil]

/-- Witness for C8: on `def f(): pass` the gate is closed, so an
evaluation oracle that always raises produces the same call result as the
concrete one. -/
theorem run_code_last_expr_gating_witness :
    run_code pyExec (fun l env => Except.error "eval disabled") "def f(): pass" [] =
      run_code pyExec pyEval "def f(): pass" [] :=
  run_code_last_expr_gating.2.1 pyExec _ _ "def f(): pass" [] rfl

/-- Witness-style instance of C1 at the empty starting namespace. -/
theorem run_code_persists_globals_witness :
    envLookup (run_code pyExec pyEval "x = 5" []).2 "x" = some (.int 5) ∧
    run_code pyExec pyEval "x" (run_code pyExec pyEval "x = 5" []).2 =
      (.one ⟨OutKind.text, "5"⟩, (run_code pyExec pyEval "x = 5" []).2) :=
  run_code_persists_globals []

/-! ## Theorems about the normalizer and the cell store -/

/-- C5: the output normalizer is idempotent on canonical values — a record
exposing both the `type` and `data` properties, or an array all of whose
elements are such records, passes through `normalizeOutput` unchanged. -/
theorem normalizeOutput_idempotent (v : JSVal) (hv : isCanonicalOutput v = true) :
    normalizeOutput v = v := by
  cases v with
  | varr xs =>
    have h : xs.all isRecordLike = true := hv
    simp [normalizeOutput, h]
  | vobj fs =>
    have h : (hasField fs "type" && hasField fs "data") = true := hv
    simp [normalizeOutput, h]
  | vstr s => exact (Bool.false_ne_true (show (false : Bool) = true from hv)).elim
  | vnum n => exact (Bool.false_ne_true (show (false : Bool) = true from hv)).elim
  | vbool b => exact (Bool.false_ne_true (show (false : Bool) = true from hv)).elim
  | vnull => exact (Bool.false_ne_true (show (false : Bool) = true from hv)).elim
  | vundef => exact (Bool.false_ne_true (show (false : Bool) = true from hv)).elim
  | vmap es => exact (Bool.false_ne_true (show (false : Bool) = true from hv)).elim
  | vproxy inner => exact (Bool.false_ne_true (show (false : Bool) = true from hv)).elim

/-- Witness for C5: the canonical record of the specification's example
passes through unchanged. -/
theorem normalizeOutput_idempotent_witness :
    normalizeOutput (.vobj [("type", .vstr "text"), ("data", .vstr "hi")]) =
      .vobj [("type", .vstr "text"), ("data", .vstr "hi")] :=
  normalizeOutput_idempotent _ rfl

/-- One targeted update of the cell list preserves the frame: length,
every cell's id, type and content, and every other cell entirely. -/
lemma map_upd_frame (g : Cell → Cell) (id : String)
    (hid : ∀ c, (g c).id = c.id) (hty : ∀ c, (g c).type = c.type)
    (hct : ∀ c, (g c).content = c.content) (cells : List Cell) :
    framePreserved id cells (cells.map (fun c => if c.id = id then g c else c)) := by
  refine ⟨by simp, ?_, ?_⟩
  · intro i
    rw [List.get?_map]
    cases h : cells.get? i with
    | none => simp
    | some c =>
      by_cases hc : c.id = id <;> simp [hc, hid, hty, hct]
  · intro i c h hne
    rw [List.get?_map, h]
    simp [hne]

/-- The frame relation holds reflexively. -/
lemma framePreserved_refl (id : String) (cells : List Cell) :
    framePreserved id cells cells :=
  ⟨rfl, fun i => ⟨rfl, rfl, rfl⟩, fun i c h _ => h⟩

/-- The frame relation composes. -/
lemma framePreserved_trans {id : String} {a b c : List Cell}
    (h1 : framePreserved id a b) (h2 : framePreserved id b c) :
    framePreserved id a c := by
  refine ⟨h2.1.trans h1.1, fun i => ?_, fun i x h hne => h2.2.2 i x (h1.2.2 i x h hne) hne⟩
  obtain ⟨a1, b1, c1⟩ := h1.2.1 i
  obtain ⟨a2, b2, c2⟩ := h2.2.1 i
  exact ⟨a2.trans a1, b2.trans b1, c2.trans c1⟩

/-- C9: frame property of the execution action — whatever the race
outcome, `executeCode` preserves the length and order of the cell list and
the id, type and content of every cell, and leaves every cell other than
the triggering one entirely unchanged. -/
theorem executeCode_frame (cells : List Cell) (id : String) (outcome : WorkerOutcome) :
    framePreserved id cells (executeCode cells id outcome) := by
  cases hfind : cells.find? (fun c => c.id = id) with
  | none =>
    have he : executeCode cells id outcome = cells := by
      simp [executeCode, hfind]
    rw [he]
    exact framePreserved_refl id cells
  | some cell =>
    by_cases hcond : cell.type = CellType.code ∧ trimChars cell.content ≠ ""
    · have hkey : ∀ out : JSVal,
          framePreserved id cells (storeResult id out (markExecuting id cells)) := by
        intro out
        exact framePreserved_trans
          (map_upd_frame
            (fun c => { c with isExecuting := some true, output := some runningPlaceholder })
            id (fun c => rfl) (fun c => rfl) (fun c => rfl) cells)
          (map_upd_frame
            (fun c => { c with output := some out, isExecuting := some false })
            id (fun c => rfl) (fun c => rfl) (fun c => rfl) (markExecuting id cells))
      cases outcome with
      | success v =>
        have he : executeCode cells id (.success v) =
            storeResult id (normalizeOutput v) (markExecuting id cells) := by
          simp [executeCode, hfind, hcond]
        rw [he]
        exact hkey _
      | failure m =>
        have he : executeCode cells id (.failure m) =
            storeResult id (errorRecord ("Execution error: " ++ m)) (markExecuting id cells) := by
          simp [executeCode, hfind, hcond]
        rw [he]
        exact hkey _
      | timedOut =>
        have he : executeCode cells id .timedOut =
            storeResult id (errorRecord ("Execution error: " ++ timeoutMessage))
              (markExecuting id cells) := by
          simp [executeCode, hfind, hcond]
        rw [he]
        exact hkey _
    · have he : executeCode cells id outcome = cells := by
        simp [executeCode, hfind, hcond]
      rw [he]
      exact framePreserved_refl id cells

/-- Witness for C9: executing the first cell of a two-cell notebook leaves
the second cell untouched. -/
theorem executeCode_frame_witness :
    (executeCode
        [{ id := "a", type := CellType.code, content := "x = 5" },
         { id := "b", type := CellType.markdown, content := "note" }]
        "a" .timedOut).get? 1 =
      some { id := "b", type := CellType.markdown, content := "note" } :=
  (executeCode_frame _ "a" .timedOut).2.2 1 _ rfl (by decide)

/-- C10: `executeCode` is a complete no-op when its precondition fails —
when no cell carries the id, when the cell is not a code cell, or when its
content trims to the empty string, the whole cell list is returned
unchanged (so no executing flag, no placeholder, and any stored output is
kept). -/
theorem executeCode_noop (cells : List Cell) (id : String) (outcome : WorkerOutcome) :
    (cells.find? (fun c => c.id = id) = none → executeCode cells id outcome = cells) ∧
    (∀ cell, cells.find? (fun c => c.id = id) = some cell →
      cell.type ≠ CellType.code → executeCode cells id outcome = cells) ∧
    (∀ cell, cells.find? (fun c => c.id = id) = some cell →
      trimChars cell.content = "" → executeCode cells id outcome = cells) := by
  refine ⟨?_, ?_, ?_⟩
  · intro h
    simp [executeCode, h]
  · intro cell h hty
    have hcond : ¬ (cell.type = CellType.code ∧ trimChars cell.content ≠ "") := by
      rintro ⟨h1, _⟩
      exact hty h1
    simp [executeCode, h, hcond]
  · intro cell h hct
    have hcond : ¬ (cell.type = CellType.code ∧ trimChars cell.content ≠ "") := by
      rintro ⟨_, h2⟩
      exact h2 hct
    simp [executeCode, h, hcond]

/-- Witness for C10: executing a markdown cell changes nothing, keeping
its previously stored output. -/
theorem executeCode_noop_witness :
    executeCode
        [{ id := "a", type := CellType.markdown, content := "note",
           output := some (strRecord "old"), isExecuting := none }] "a" .timedOut =
      [{ id := "a", type := CellType.markdown, content := "note",
         output := some (strRecord "old"), isExecuting := none }] :=
  (executeCode_noop _ "a" .timedOut).2.1 _ rfl (by decide)

/-! ## Theorems about the timeout race and the channel -/

/-- A targeted update moves through `find?` on the target id: the found
cell is the updated original. -/
lemma find?_map_upd (g : Cell → Cell) (hid : ∀ c, (g c).id = c.id)
    (id : String) (cells : List Cell) (cell : Cell)
    (h : cells.find? (fun c => c.id = id) = some cell) :
    (cells.map (fun c => if c.id = id then g c else c)).find? (fun c => c.id = id) =
      some (g cell) := by
  induction cells with
  | nil => simp at h
  | cons a l ih =>
    by_cases ha : a.id = id
    · rw [List.find?_cons_of_pos _ (by simp [ha])] at h
      have hc : a = cell := by
        injection h
      rw [List.map_cons,
        List.find?_cons_of_pos _ (by simp [ha, hid])]
      rw [if_pos ha, hc]
    · rw [List.find?_cons_of_neg _ (by simp [ha])] at h
      rw [List.map_cons,
        List.find?_cons_of_neg _ (by simp [ha, hid])]
      exact ih h

/-- C4: timeout behaviour of the execution pathway — the race deadline is
the fixed 30000 ms; a reply that never arrives, or arrives no earlier than
the deadline, settles the race as a timeout; a timed-out execution stores
on the triggering cell exactly the error record with the fixed message
`Execution error: Execution timed out after 30 seconds`; abandoning the
wait does not touch the background computation; and a late reply whose
requestId no longer has a waiter is dropped without effect. -/
theorem executeCode_timeout_behavior :
    (executionTimeoutMs = 30000) ∧
    (∀ reply, raceWithTimeout none reply = .timedOut) ∧
    (∀ (t : Nat) (reply : WorkerReply), executionTimeoutMs ≤ t →
      raceWithTimeout (some t) reply = .timedOut) ∧
    (∀ (cells : List Cell) (id : String) (cell : Cell),
      cells.find? (fun c => c.id = id) = some cell →
      cell.type = CellType.code → trimChars cell.content ≠ "" →
      (executeCode cells id .timedOut).find? (fun c => c.id = id) =
        some { cell with
               output := some (errorRecord ("Execution error: " ++ timeoutMessage)),
               isExecuting := some false }) ∧
    (∀ (st : ChannelState) (rid : Nat), (abandonWait st rid).running = st.running) ∧
    (∀ (st : ChannelState) (rid : Nat) (reply : WorkerReply),
      st.pending.contains rid = false → deliverReply st rid reply = (st, none)) := by
  refine ⟨rfl, fun reply => rfl, ?_, ?_, fun st rid => rfl, ?_⟩
  · intro t reply h
    have hlt : ¬ t < executionTimeoutMs := Nat.not_lt.2 h
    simp [raceWithTimeout, hlt]
  · intro cells id cell hfind hty hct
    have he : executeCode cells id .timedOut =
        storeResult id (errorRecord ("Execution error: " ++ timeoutMessage))
          (markExecuting id cells) := by
      simp [executeCode, hfind, hty, hct]
    have h1 := find?_map_upd
      (fun c => { c with isExecuting := some true, output := some runningPlaceholder })
      (fun c => rfl) id cells cell hfind
    have h2 := find?_map_upd
      (fun c => { c with
                  output := some (errorRecord ("Execution error: " ++ timeoutMessage)),
                  isExecuting := some false })
      (fun c => rfl) id (markExecuting id cells) _ h1
    rw [he]
    exact h2
  · intro st rid reply h
    have h2 : rid ∉ st.pending := by simpa using h
    simp [deliverReply, h2]

/-- Witness for C4: a timed-out run of a one-cell notebook stores the
fixed timeout error record on the cell. -/
theorem executeCode_timeout_behavior_witness :
    (executeCode [{ id := "c1", type := CellType.code, content := "x = 5" }]
        "c1" .timedOut).find? (fun c => c.id = "c1") =
      some { id := "c1", type := CellType.code, content := "x = 5",
             output := some (errorRecord ("Execution error: " ++ timeoutMessage)),
             isExecuting := some false } :=
  executeCode_timeout_behavior.2.2.2.1
    [{ id := "c1", type := CellType.code, content := "x = 5" }] "c1"
    { id := "c1", type := CellType.code, content := "x = 5" } rfl rfl (by decide)

/-! ## Theorems about initialization -/

/-- Counterexample for C6 as stated: after a failed initialization, a
second `getPyodide` call whose fresh attempt would succeed still returns
the memoized rejected result — the loader never retries, because
`pyodideReadyPromise` is never cleared on failure. -/
theorem getPyodide_no_retry_cex :
    getPyodide (getPyodide ⟨none⟩ (.err "Failed to load Pyodide")).1 .ok =
      ((getPyodide ⟨none⟩ (.err "Failed to load Pyodide")).1,
        .err "Failed to load Pyodide") ∧
    (getPyodide ⟨none⟩ (.err "Failed to load Pyodide")).1.memo =
      some (.err "Failed to load Pyodide") :=
  ⟨rfl, rfl⟩

/-- C6 (amended): a failing initialization rejects the pending
`getPyodide` promise with the descriptive error and memoizes that
rejection; every later call returns the memoized result — including a
rejection — and never starts a fresh initialization. -/
theorem getPyodide_memoizes_rejection :
    (∀ (st : LoaderState) (m : String), st.memo = none →
      getPyodide st (.err m) = ({ memo := some (.err m) }, .err m)) ∧
    (∀ (st : LoaderState) (r attempt : LoadResult), st.memo = some r →
      getPyodide st attempt = (st, r)) := by
  constructor
  · intro st m h
    simp [getPyodide, h]
  · intro st r attempt h
    simp [getPyodide, h]

/-- Witness for C6 (amended): a memoized rejection is returned as-is even
though the fresh attempt would succeed. -/
theorem getPyodide_memoizes_rejection_witness :
    getPyodide ⟨some (.err "boom")⟩ .ok = (⟨some (.err "boom")⟩, .err "boom") :=
  getPyodide_memoizes_rejection.2 _ _ .ok rfl

/-- Counterexample for C7 as stated: in the main-thread loader a single
failed preload package (here `pandas`) is rethrown and fails the whole
initialization. -/
theorem preload_failure_fails_main_init_cex :
    loadPyodideAndPackages .ok
        (fun p => if p = "pandas" then .err "Failed to fetch" else .ok) .ok =
      .err "Failed to fetch" := rfl

/-- C7 (amended): preload fault tolerance holds for the worker
initialization — its outcome is entirely independent of the package-load
results, its loop loads exactly the succeeding packages in order and warns
exactly the failing ones — while the main-thread loader's sequential loop
succeeds only when every package of its fixed list loads. -/
theorem preload_fault_tolerance :
    (∀ (engine bootstrap : LoadResult) (lp1 lp2 : String → LoadResult),
      initializePyodide engine lp1 bootstrap = initializePyodide engine lp2 bootstrap) ∧
    (∀ (lp : String → LoadResult) (ps : List String),
      (loadPackagesTolerant lp ps).1 = ps.filter (fun p => lp p = .ok) ∧
      (loadPackagesTolerant lp ps).2 = ps.filter (fun p => lp p ≠ .ok)) ∧
    (∀ (lp : String → LoadResult) (ps : List String),
      loadPackagesSeq lp ps = .ok ↔ ∀ p ∈ ps, lp p = .ok) := by
  refine ⟨?_, ?_, ?_⟩
  · intro engine bootstrap lp1 lp2
    cases engine <;> rfl
  · intro lp ps
    induction ps with
    | nil => exact ⟨rfl, rfl⟩
    | cons p ps ih =>
      cases hlp : lp p with
      | ok => simp [loadPackagesTolerant, hlp, List.filter_cons, ih.1, ih.2]
      | err m => simp [loadPackagesTolerant, hlp, List.filter_cons, ih.1, ih.2]
  · intro lp ps
    induction ps with
    | nil => simp [loadPackagesSeq]
    | cons p ps ih =>
      cases hlp : lp p with
      | ok => simp [loadPackagesSeq, hlp, ih]
      | err m => simp [loadPackagesSeq, hlp]

/-- Witness for C7 (amended): the worker initialization result with a
failing pandas load equals the one with all loads succeeding. -/
theorem preload_fault_tolerance_witness :
    initializePyodide .ok
        (fun p => if p = "pandas" then .err "Failed to fetch" else .ok) .ok =
      initializePyodide .ok (fun p => .ok) .ok :=
  preload_fault_tolerance.1 .ok .ok _ _

end Pynote
